import Mathlib

/-!
Verification development for the quadstorm flight-control core.

The Rust sources are shallowly embedded:

* `f32` values are modelled by the inductive type `F32` below: NaN, the two
  signed infinities, and finite values represented by exact rationals.
  IEEE 754 special-value behaviour (NaN propagation, `0 * inf = NaN`,
  `0 / 0 = NaN`, the saturating `as u16` cast, the NaN-preserving
  `f32::clamp`) is modelled faithfully; rounding of in-range finite results
  is not modelled (finite arithmetic is exact), the two signed zeros are
  identified, and overflow of finite sums to infinity is not modelled.
  No theorem in this file depends on those three simplifications.
* machine integers (`u16`, `usize`) are modelled as `Nat` with explicit
  bounds where they matter; `i16` decoding goes through `Int`.
* the external math routines `m::Float::sqrt` and `m::Float::atan2` are
  uninterpreted parameters of the sensor-fusion model; concrete stand-ins
  (`F32.sqrtM`, `F32.atan2M`) implement only the IEEE-mandated
  special-value cases that the theorems exercise.
* hardware/async effects (SPI transfers, RMT transmission, wall-clock
  waits) are modelled by explicit data flow: byte lists for SPI reads,
  pulse-code lists for RMT frames, and a list of clock readings consumed
  by one `Instant::now()` call each for the deadline-driven arming loops.
-/

namespace Quadstorm

/-- Model of a Rust `f32` value: NaN, a signed infinity (`positive = true`
for `+inf`), or a finite value carried as an exact rational. -/
inductive F32 where
  | nan : F32
  | inf (positive : Bool) : F32
  | fin (q : ℚ) : F32
deriving DecidableEq, Repr

namespace F32

/-- Nan test, mirroring `f32::is_nan`. -/
def isNaN : F32 → Bool
  | nan => true
  | _ => false

/-- Finiteness test, mirroring `f32::is_finite`. -/
def isFinite : F32 → Bool
  | fin _ => true
  | _ => false

/-- IEEE negation. -/
def neg : F32 → F32
  | nan => nan
  | inf s => inf (!s)
  | fin q => fin (-q)

/-- IEEE addition on the model: NaN propagates, opposite infinities give
NaN, finite addition is exact. -/
def add : F32 → F32 → F32
  | nan, _ => nan
  | _, nan => nan
  | inf s, inf t => if s = t then inf s else nan
  | inf s, fin _ => inf s
  | fin _, inf t => inf t
  | fin a, fin b => fin (a + b)

/-- IEEE subtraction, as addition of the negation. -/
def sub (a b : F32) : F32 := add a (neg b)

/-- IEEE multiplication on the model: NaN propagates, `0 * inf = NaN`,
signs of infinities combine, finite multiplication is exact. -/
def mul : F32 → F32 → F32
  | nan, _ => nan
  | _, nan => nan
  | inf s, inf t => inf (s = t)
  | inf s, fin q => if q = 0 then nan else if 0 < q then inf s else inf (!s)
  | fin q, inf s => if q = 0 then nan else if 0 < q then inf s else inf (!s)
  | fin a, fin b => fin (a * b)

/-- IEEE division on the model: NaN propagates, `inf / inf = NaN`,
`0 / 0 = NaN`, a nonzero finite value over zero is a signed infinity. -/
def div : F32 → F32 → F32
  | nan, _ => nan
  | _, nan => nan
  | inf _, inf _ => nan
  | inf s, fin q => if q < 0 then inf (!s) else inf s
  | fin _, inf _ => fin 0
  | fin a, fin b =>
    if b = 0 then (if a = 0 then nan else if a < 0 then inf false else inf true)
    else fin (a / b)

instance : Neg F32 := ⟨neg⟩
instance : Add F32 := ⟨add⟩
instance : Sub F32 := ⟨sub⟩
instance : Mul F32 := ⟨mul⟩
instance : Div F32 := ⟨div⟩

/-- The strict `<` comparison of `f32` as a boolean: any comparison with
NaN is false. -/
def flt : F32 → F32 → Bool
  | nan, _ => false
  | _, nan => false
  | inf s, inf t => !s && t
  | inf s, fin _ => !s
  | fin _, inf t => t
  | fin a, fin b => decide (a < b)

/-- Rust `f32::clamp(self, lo, hi)`: `lo` if `self < lo`, `hi` if
`self > hi`, otherwise `self`; in particular NaN is returned unchanged. -/
def clampF (x lo hi : F32) : F32 :=
  if x.flt lo then lo else if hi.flt x then hi else x

/-- Rust `as u16` cast: saturating, truncating toward zero, NaN to 0. -/
def toU16 : F32 → Nat
  | nan => 0
  | inf s => if s then 65535 else 0
  | fin q => if q < 0 then 0 else min 65535 (⌊q⌋).toNat

end F32

/-- Three-element vector as a function from `Fin 3`, standing in for the
Rust arrays `[T; 3]`. -/
def vec3 {α : Type} (a b c : α) : Fin 3 → α := fun i =>
  match i with
  | ⟨0, _⟩ => a
  | ⟨1, _⟩ => b
  | ⟨2, _⟩ => c

/-! ## Attitude PID controller, from `src/drone/src/sensor_fusion.rs`

The Rust code is written over the type alias `type F = f32`; the embedding
is generic in the scalar type so that it can be instantiated at the `F32`
model. -/

/-- State of one per-axis PID controller (`struct Pid`). -/
structure Pid (α : Type) where
  k_p : α
  k_i : α
  k_d : α
  last_input : α
  sum : α
deriving DecidableEq, Repr

/-- Embedding of `Pid::advance`: the error is added to the running sum
first, the control output is computed from the updated sum, and
`last_input` is replaced by the error afterwards. Returns the updated
state together with the control output. -/
def Pid.advance {α : Type} [Add α] [Mul α] [Sub α] (p : Pid α) (error : α) :
    Pid α × α :=
  let sum := p.sum + error
  let control := p.k_p * error + p.k_i * sum + p.k_d * (p.last_input - error)
  ({ p with sum := sum, last_input := error }, control)

/-- Repeated `Pid::advance` over a list of error inputs, collecting the
control outputs in order. -/
def runPid {α : Type} [Add α] [Mul α] [Sub α] (p : Pid α) :
    List α → Pid α × List α
  | [] => (p, [])
  | e :: es =>
    let r := p.advance e
    let rest := runPid r.1 es
    (rest.1, r.2 :: rest.2)

/-! ## Complementary-filter sensor fusion, from `src/drone/src/sensor_fusion.rs` -/

/-- The constant `IMU_AXIS_MAP = [0, 1, 2]`. -/
def imuAxisMap : Fin 3 → Fin 3 := vec3 0 1 2

/-- The constant `IMU_AXIS_SCALE = [1.0, 1.0, -1.0]`. -/
def imuAxisScale : Fin 3 → F32 := vec3 (F32.fin 1) (F32.fin 1) (F32.fin (-1))

/-- The constant `RAD2DEG = 180.0 / core::f32::consts::PI`. The value is a
finite `f32` constant; its exact magnitude is irrelevant to every theorem
in this file, so the model uses the decimal expansion of 180/π. -/
def rad2deg : F32 := F32.fin (57295779513 / 1000000000)

/-- An input to `ComplementaryFilterFusion::advance`, i.e. the data an
implementor of the `ImuSample` trait provides: gyro rates, accelerometer
readings and the elapsed time. -/
structure SampleF where
  gyro : Fin 3 → F32
  accel : Fin 3 → F32
  dt : F32
deriving DecidableEq

/-- State of `struct ComplementaryFilterFusion`. -/
structure FusionState where
  alpha : F32
  orientation : Fin 3 → F32
  target : Fin 3 → F32
  pid : Fin 3 → Pid F32
deriving DecidableEq

/-- Embedding of `ComplementaryFilterFusion::advance`. The library calls
`m::Float::sqrt` and `m::Float::atan2` are uninterpreted and passed in as
the parameters `sqrtF` and `atan2F`. Returns the updated state and the
three PID control outputs. -/
def fusionAdvance (sqrtF : F32 → F32) (atan2F : F32 → F32 → F32)
    (st : FusionState) (s : SampleF) : FusionState × (Fin 3 → F32) :=
  let gyroOrientation : Fin 3 → F32 := fun i =>
    st.orientation i + imuAxisScale i * s.gyro (imuAxisMap i) * s.dt
  let gravity : Fin 3 → F32 := fun i =>
    imuAxisScale i * s.accel (imuAxisMap i) * s.dt
  let gravityNorm : F32 :=
    sqrtF (gravity 0 * gravity 0 + gravity 1 * gravity 1 + gravity 2 * gravity 2)
  let ngravity : Fin 3 → F32 := fun i => gravity i / gravityNorm
  let accelOrientation : Fin 3 → F32 :=
    vec3 (-(atan2F (ngravity 1) (ngravity 2)) * rad2deg)
      (-(atan2F (-(gravity 0))
          (sqrtF (ngravity 1 * ngravity 1 + ngravity 2 * ngravity 2))) * rad2deg)
      (F32.fin 0)
  let newOrientation : Fin 3 → F32 :=
    vec3 (st.alpha * gyroOrientation 0 + (F32.fin 1 - st.alpha) * accelOrientation 0)
      (st.alpha * gyroOrientation 1 + (F32.fin 1 - st.alpha) * accelOrientation 1)
      (gyroOrientation 2)
  let pidRun : Fin 3 → Pid F32 × F32 := fun i =>
    (st.pid i).advance (st.target i - newOrientation i)
  ({ st with orientation := newOrientation, pid := fun i => (pidRun i).1 },
    fun i => (pidRun i).2)

/-- Stand-in for `m::Float::sqrt` implementing the IEEE-mandated special
cases (`sqrt NaN = NaN`, `sqrt +inf = +inf`, `sqrt` of a negative is NaN,
`sqrt 0 = 0`); on positive finite rationals the true square root is
irrational, and since no theorem depends on that value the rational itself
is returned as a placeholder magnitude. -/
def F32.sqrtM : F32 → F32
  | F32.nan => F32.nan
  | F32.inf s => if s then F32.inf true else F32.nan
  | F32.fin q => if q < 0 then F32.nan else F32.fin q

/-- Stand-in for `m::Float::atan2` implementing the IEEE-mandated NaN
propagation (`atan2` of any NaN argument is NaN); on other inputs the true
angle is irrational, and since no theorem depends on that value a
placeholder finite angle is returned. -/
def F32.atan2M (y x : F32) : F32 :=
  if y.isNaN || x.isNaN then F32.nan else F32.fin 0

/-! ## Motor mixer, from the flight loop in `src/drone/src/main.rs`

The loop computes four mix sums from thrust and the three PID outputs,
clamps each to `[0.0, 1000.0]`, applies the per-motor reversal flags
(`MOTOR_*_REV`; only the back-left motor is reversed, and the `*_IDX`
index map is the identity), adds the `1000.0` offset and casts to `u16`. -/

/-- The four raw mix sums, in motor order front-left, front-right,
back-right, back-left. -/
def motorThrottlesRaw (thrust roll pitch yaw : F32) : List F32 :=
  [thrust + roll + pitch - yaw,
   thrust - roll + pitch + yaw,
   thrust - roll - pitch - yaw,
   thrust + roll - pitch + yaw]

/-- The mix sums after `.map(|f| f.clamp(0.0, 1000.0))`. -/
def motorThrottlesClamped (thrust roll pitch yaw : F32) : List F32 :=
  (motorThrottlesRaw thrust roll pitch yaw).map
    (fun f => f.clampF (F32.fin 0) (F32.fin 1000))

/-- The per-motor reversal flags `MOTOR_*_REV` in index order: only the
back-left motor (index 3) is reversed. -/
def motorReversalFlags : List Bool := [false, false, false, true]

/-- The final `mapped_motor_throttles` sent to `Motors::send_throttles`:
optional negation per reversal flag, then `+ 1000.0`, then `as u16`. -/
def mappedMotorThrottles (thrust roll pitch yaw : F32) : List Nat :=
  ((List.zip (motorThrottlesClamped thrust roll pitch yaw) motorReversalFlags).map
      (fun vr => if vr.2 then -vr.1 else vr.1)).map
    (fun t => (t + F32.fin 1000).toU16)

/-- Boolean predicate: a model float is a finite value in `[0, 1000]` (the
mixer clamp range). -/
def inClampRange : F32 → Bool
  | F32.fin q => decide (0 ≤ q ∧ q ≤ 1000)
  | _ => false

/-! ## ESC pulse protocols, from `src/esp-ikarus/src/motors/rmt.rs` and
`src/drone/src/motors.rs` (the two files agree on every definition
embedded here). -/

/-- One RMT pulse code. Every entry the motor drivers build is
`PulseCode::new(Level::High, hi, Level::Low, lo)`, so only the two
durations are modelled; `endMarker` is `PulseCode::end_marker()`. -/
inductive PulseCode where
  | entry (highDur lowDur : Nat) : PulseCode
  | endMarker : PulseCode
deriving DecidableEq, Repr

/-- Bit-timing table of a DShot variant: the `ONE_HI/ONE_LO/ZERO_HI/ZERO_LO`
associated constants. -/
structure DShotTiming where
  oneHi : Nat
  oneLo : Nat
  zeroHi : Nat
  zeroLo : Nat
deriving DecidableEq, Repr

/-- Timing constants of `impl DShot for DShot600`. -/
def dshot600Timing : DShotTiming := ⟨60, 20, 30, 50⟩

/-- Timing constants of `impl DShot for DShot300`. -/
def dshot300Timing : DShotTiming := ⟨60, 20, 30, 50⟩

/-- Timing constants of `impl DShot for DShot150`. -/
def dshot150Timing : DShotTiming := ⟨60, 20, 30, 50⟩

/-- The `k` low-order bits of `n`, least significant first. -/
def natToBits : Nat → Nat → List Bool
  | 0, _ => []
  | k + 1, n => (n % 2 == 1) :: natToBits k (n / 2)

/-- Rebuild a natural number from bits, least significant first. -/
def bitsToNat : List Bool → Nat
  | [] => 0
  | b :: t => (if b then 1 else 0) + 2 * bitsToNat t

/-- Model of `u16::reverse_bits`: reverse the 16-bit representation (for
arguments below `2^16` this agrees bit-for-bit with the Rust intrinsic). -/
def reverseBits16 (n : Nat) : Nat := bitsToNat ((natToBits 16 n).reverse)

/-- The 12-bit payload `data = value << 1 | telemetry` of
`DShot::encode_frame`. -/
def dshotData (value : Nat) (telemetry : Bool) : Nat :=
  value <<< 1 ||| (if telemetry then 1 else 0)

/-- The 4-bit DShot checksum
`crc = (data ^ (data >> 4) ^ (data >> 8)) & 0xf` of the 12-bit payload. -/
def dshotCrc (value : Nat) (telemetry : Bool) : Nat :=
  (dshotData value telemetry ^^^ (dshotData value telemetry >>> 4) ^^^
    (dshotData value telemetry >>> 8)) &&& 0xf

/-- The 16-bit packet `(data << 4) | crc` of `DShot::encode_frame`. -/
def dshotPacket (value : Nat) (telemetry : Bool) : Nat :=
  (dshotData value telemetry <<< 4) ||| dshotCrc value telemetry

/-- The pulse pair encoding one frame bit, chosen from the variant's
bit-timing table. -/
def encodeBit (T : DShotTiming) (b : Bool) : PulseCode :=
  if b then PulseCode.entry T.oneHi T.oneLo else PulseCode.entry T.zeroHi T.zeroLo

/-- Embedding of `DShot::encode_frame`. The `assert!(value < 2048)` is
modelled by returning `none` when the precondition fails. The source
fills a 17-entry array whose index 16 stays `PulseCode::end_marker()`,
writing for each `i < 16` the pulse pair for bit `i` of the bit-reversed
packet. -/
def encodeFrame (T : DShotTiming) (value : Nat) (telemetry : Bool) :
    Option (List PulseCode) :=
  if value < 2048 then
    some ((List.range 16).map (fun i =>
        encodeBit T ((reverseBits16 (dshotPacket value telemetry) >>> i) &&& 1 == 1))
      ++ [PulseCode.endMarker])
  else none

/-- The inverse transform of `encodeFrame` described by the spec: classify
each of the 16 pulse pairs against the variant's one-bit timing, rebuild
the frame, undo the bit reversal and split the packet into throttle value,
telemetry flag and checksum. -/
def decodeFrame (T : DShotTiming) (pulses : List PulseCode) :
    Option (Nat × Bool × Nat) :=
  if pulses.length = 17 ∧ pulses.getLast? = some PulseCode.endMarker then
    let bits := (pulses.take 16).map (fun p => p == PulseCode.entry T.oneHi T.oneLo)
    let frame := bitsToNat bits
    let packet := reverseBits16 frame
    some (packet / 32, (packet / 16) % 2 == 1, packet % 16)
  else none

/-- Embedding of `DShot::throttle_transform`:
`throttle.clamp(1, 1999) + 48` (the `u16` `Ord::clamp`). -/
def dshotThrottleTransform (throttle : Nat) : Nat :=
  min (max throttle 1) 1999 + 48

/-- Embedding of `OneShot::throttle_transform`:
`(throttle / 2).min(1000) + 1000`. -/
def oneShotThrottleTransform (throttle : Nat) : Nat :=
  min (throttle / 2) 1000 + 1000

/-- Embedding of `OneShot::encode_oneshot_pulse`: one high pulse of the
given duration, a low period of length 0, and the end marker. -/
def encodeOneshotPulse (value : Nat) : List PulseCode :=
  [PulseCode.entry value 0, PulseCode.endMarker]

/-! ## Arming sequences, from `Motors::arm_oneshot`

Both arm loops have the shape
`let end = Instant::now() + dur; while Instant::now() <= end { send v }`.
Wall-clock time is modelled by a list of clock readings (in seconds, the
unit of the `Duration::from_secs` literals); every `Instant::now()` call
consumes one reading. A trace records the common throttle value of each
4-motor `send_throttles` call, in order. -/

/-- The `while Instant::now() <= end { send v }` loop body: consume clock
readings while they are at most the deadline, emitting one send per
iteration; the reading that fails the test is consumed by the final check.
Returns the emitted sends and the remaining clock. -/
def phaseLoop (endT v : Nat) : List Nat → List Nat × List Nat
  | [] => ([], [])
  | t :: ts =>
    if t ≤ endT then
      let r := phaseLoop endT v ts
      (v :: r.1, r.2)
    else ([], ts)

/-- One arming phase: read the clock once to fix the deadline
`now + dur`, then loop until the deadline passes. -/
def runPhase (v dur : Nat) : List Nat → List Nat × List Nat
  | [] => ([], [])
  | t0 :: ts => phaseLoop (t0 + dur) v ts

/-- Run a scripted list of `(throttle value, duration)` phases in order,
threading the clock through. -/
def runPhases : List (Nat × Nat) → List Nat → List Nat
  | [], _ => []
  | (v, dur) :: ps, clock =>
    let r := runPhase v dur clock
    r.1 ++ runPhases ps r.2

/-- The scripted phases of `Motors::arm_oneshot` in
`src/esp-ikarus/src/motors/rmt.rs`: zero throttle for 1 s, the arm value
1200 for 1 s, then minimum throttle 1000 for 1 s. -/
def armOneshotIkarusPhases : List (Nat × Nat) := [(0, 1), (1200, 1), (1000, 1)]

/-- The scripted phases of `Motors::arm_oneshot` in
`src/drone/src/motors.rs` (the implementation the flight binary calls):
a single phase holding throttle 1000 for 3 s. -/
def armOneshotDronePhases : List (Nat × Nat) := [(1000, 3)]

/-- Trace of the esp-ikarus `arm_oneshot` under a given clock. -/
def armOneshotIkarus (clock : List Nat) : List Nat :=
  runPhases armOneshotIkarusPhases clock

/-- Trace of the drone-crate `arm_oneshot` under a given clock. -/
def armOneshotDrone (clock : List Nat) : List Nat :=
  runPhases armOneshotDronePhases clock

/-! ## LSM6DS3 FIFO reader, from `src/esp/drone/src/esp_ikarus/lsm6ds3.rs`

One iteration of the inner status/read/decode loop of `read_imu_task` is
modelled. Its inputs are the fields of the freshly read `FifoStatus` that
the iteration uses (`over_run` and `pattern`), the retained leftover byte
count from the previous iteration, and the bytes `buf[0..end]` available
after the SPI FIFO read. `BYTES_PER_WORD = 2`,
`ENTRIES_PER_SAMPLE * WORDS_PER_ENTRY = 9` words = 18 bytes per sample,
`PATTERNS = 9`. -/

/-- Bytes per FIFO word (`BYTES_PER_WORD`). -/
def bytesPerWord : Nat := 2

/-- Words per whole sample (`ENTRIES_PER_SAMPLE * WORDS_PER_ENTRY`). -/
def wordsPerSample : Nat := 9

/-- One decoded inertial sample (`struct Sample`): gyro, accelerometer and
temperature triples in physical units. -/
structure SampleQ where
  gy : List ℚ
  xl : List ℚ
  temp : List ℚ
deriving DecidableEq, Repr

/-- A sample tagged with the channel event (`enum SampleEvent`). -/
inductive SampleEvent where
  | ok (s : SampleQ) : SampleEvent
  | lagged (s : SampleQ) : SampleEvent
deriving DecidableEq, Repr

/-- Event is the `Lagged` variant. -/
def SampleEvent.isLagged : SampleEvent → Bool
  | lagged _ => true
  | _ => false

/-- Event is the `Ok` variant. -/
def SampleEvent.isOk : SampleEvent → Bool
  | ok _ => true
  | _ => false

/-- Little-endian `i16::from_le_bytes` of two bytes, as an integer. -/
def toI16 (lo hi : Nat) : Int :=
  let v := lo % 256 + 256 * (hi % 256)
  if v < 32768 then (v : Int) else (v : Int) - 65536

/-- The constant `MDPS_PER_LSB = 0.035` (gyro scale for 1000 dps). -/
def mdpsPerLsb : ℚ := 35 / 1000

/-- The constant `MG_PER_LSB = 0.244` (accelerometer scale for 8 g). -/
def mgPerLsb : ℚ := 244 / 1000

/-- Decode one 18-byte chunk `[rx ry rz ax ay az t0 t1 t2]` (nine
little-endian `i16` words) into a physical-unit sample, mirroring the
conversion in `read_imu_task`. -/
def decodeSample (c : List Nat) : SampleQ :=
  let w := fun i : Nat => (toI16 (c.getD (2 * i) 0) (c.getD (2 * i + 1) 0) : ℚ)
  { gy := [w 0 * mdpsPerLsb, w 1 * mdpsPerLsb, w 2 * mdpsPerLsb],
    xl := [w 3 * mgPerLsb, w 4 * mgPerLsb, w 5 * mgPerLsb],
    temp := [w 6 / 256 + 25, w 7 / 256 + 25, w 8 / 256 + 25] }

/-- Fuel-indexed worker for `chunks18`; the fuel only needs to dominate
the number of chunks, and structural recursion on it keeps the function
kernel-reducible. -/
def chunks18Aux : Nat → List Nat → List (List Nat)
  | 0, _ => []
  | fuel + 1, l =>
    if 18 ≤ l.length then l.take 18 :: chunks18Aux fuel (l.drop 18) else []

/-- Split a byte list into maximal whole 18-byte sample chunks, dropping
the trailing leftover (`words.as_chunks::<9>()` after the 2-byte word
chunking). -/
def chunks18 (l : List Nat) : List (List Nat) := chunks18Aux l.length l

/-- One iteration of the FIFO poll loop of `read_imu_task`: check the
`assert!(pattern < PATTERNS)` (modelled as `none` on failure, since the
task panics there), compute the lag condition
`over_run || leftover_len / 2 != pattern`, decode every whole sample from
the read bytes and tag each one `Lagged` when the condition held and `Ok`
otherwise. -/
def readImuPoll (overRun : Bool) (pattern leftoverLen : Nat)
    (bytes : List Nat) : Option (List SampleEvent) :=
  if pattern < wordsPerSample then
    let lag := overRun || !(leftoverLen / bytesPerWord == pattern)
    some ((chunks18 bytes).map (fun c =>
      if lag then SampleEvent.lagged (decodeSample c)
      else SampleEvent.ok (decodeSample c)))
  else none

/-! ## Command messages, from `src/common-messages/src/lib.rs` and the
flight-loop command drain in `src/drone/src/main.rs` -/

/-- The inbound command enum `RemoteRequest`. The `f32` payloads are
modelled with `F32`. -/
inductive RemoteRequest where
  | ping : RemoteRequest
  | setArm (b : Bool) : RemoteRequest
  | armConfirm : RemoteRequest
  | setThrust (v : F32) : RemoteRequest
  | setTarget (t : Fin 3 → F32) : RemoteRequest
  | setTune (kp ki kd : Fin 3 → F32) : RemoteRequest
deriving DecidableEq

/-- The outbound response enum `DroneResponse`. -/
inductive DroneResponse where
  | pong : DroneResponse
  | armState (b : Bool) : DroneResponse
  | motorsState (m : Fin 4 → F32) : DroneResponse
  | log (bytes : List Nat) : DroneResponse
deriving DecidableEq

/-- Outcome of draining one pending command in the flight loop: either a
response is sent, or the task panics (the `todo!()` arm). -/
inductive CommandOutcome where
  | responds (r : DroneResponse) : CommandOutcome
  | panics : CommandOutcome
deriving DecidableEq

/-- Embedding of the `match remote_req` at the end of the flight loop in
`src/drone/src/main.rs`: `Ping` is answered with `Pong`; every other
variant hits `todo!()`. -/
def handleRemoteRequest : RemoteRequest → CommandOutcome
  | RemoteRequest.ping => CommandOutcome.responds DroneResponse.pong
  | _ => CommandOutcome.panics

/-! ## Concrete example values used by witness and counterexample
theorems. `fusionStateExample` matches the constructor call in
`src/drone/src/main.rs`: `alpha = 0.95`, zero orientation and target,
gains `kp = 15`, `ki = kd = 0`. -/

/-- A PID state with the flight binary's roll gains and zeroed state. -/
def pidExample : Pid F32 :=
  { k_p := F32.fin 15, k_i := F32.fin 0, k_d := F32.fin 0,
    last_input := F32.fin 0, sum := F32.fin 0 }

/-- The fusion state built in the flight binary's `main`. -/
def fusionStateExample : FusionState :=
  { alpha := F32.fin (95 / 100),
    orientation := vec3 (F32.fin 0) (F32.fin 0) (F32.fin 0),
    target := vec3 (F32.fin 0) (F32.fin 0) (F32.fin 0),
    pid := fun _ => pidExample }

/-- A sample with zero z-axis gyro rate and an ordinary finite `dt`. -/
def sampleGyroZeroDtFinite : SampleF :=
  { gyro := vec3 (F32.fin 1) (F32.fin 2) (F32.fin 0),
    accel := vec3 (F32.fin 0) (F32.fin 0) (F32.fin 1),
    dt := F32.fin (1 / 400) }

/-- A sample with zero z-axis gyro rate but an infinite `dt`. -/
def sampleGyroZeroDtInf : SampleF :=
  { gyro := vec3 (F32.fin 1) (F32.fin 2) (F32.fin 0),
    accel := vec3 (F32.fin 0) (F32.fin 0) (F32.fin 1),
    dt := F32.inf true }

/-- A sample whose accelerometer vector is identically zero. -/
def sampleZeroAccel : SampleF :=
  { gyro := vec3 (F32.fin 0) (F32.fin 0) (F32.fin 0),
    accel := vec3 (F32.fin 0) (F32.fin 0) (F32.fin 0),
    dt := F32.fin (1 / 400) }

/-- Eighteen zero bytes: exactly one whole FIFO sample. -/
def pollBytesExample : List Nat := List.replicate 18 0

/-- The events a lagged poll over `pollBytesExample` delivers. -/
def pollEventsExample : List SampleEvent :=
  (chunks18 pollBytesExample).map (fun c => SampleEvent.lagged (decodeSample c))

/-! ## Basic facts about the `F32` model -/

@[simp]
theorem F32.nan_add (x : F32) : F32.nan + x = F32.nan := by
  cases x <;> rfl

@[simp]
theorem F32.add_nan (x : F32) : x + F32.nan = F32.nan := by
  cases x <;> rfl

@[simp]
theorem F32.nan_mul (x : F32) : F32.nan * x = F32.nan := by
  cases x <;> rfl

@[simp]
theorem F32.mul_nan (x : F32) : x * F32.nan = F32.nan := by
  cases x <;> rfl

@[simp]
theorem F32.neg_nan : -F32.nan = F32.nan := rfl

@[simp]
theorem F32.fin_add_fin (a b : ℚ) : F32.fin a + F32.fin b = F32.fin (a + b) := rfl

@[simp]
theorem F32.fin_mul_fin (a b : ℚ) : F32.fin a * F32.fin b = F32.fin (a * b) := rfl

@[simp]
theorem F32.neg_fin (a : ℚ) : -F32.fin a = F32.fin (-a) := rfl

@[simp]
theorem F32.fin_sub_fin (a b : ℚ) : F32.fin a - F32.fin b = F32.fin (a - b) := by
  show F32.fin (a + -b) = F32.fin (a - b)
  rw [sub_eq_add_neg]

@[simp]
theorem F32.add_fin_zero (x : F32) : x + F32.fin 0 = x := by
  cases x with
  | nan => rfl
  | inf s => rfl
  | fin q => rw [F32.fin_add_fin, add_zero]

@[simp]
theorem F32.nan_div (x : F32) : F32.nan / x = F32.nan := by
  cases x <;> rfl

@[simp]
theorem F32.div_nan (x : F32) : x / F32.nan = F32.nan := by
  cases x <;> rfl

@[simp]
theorem F32.fin_zero_div_fin_zero : F32.fin 0 / F32.fin 0 = F32.nan := by
  show F32.div _ _ = _
  simp [F32.div]

@[simp]
theorem F32.fin_zero_mul_inf (s : Bool) : F32.fin 0 * F32.inf s = F32.nan := by
  show F32.mul _ _ = _
  simp [F32.mul]

@[simp]
theorem vec3_zero {α : Type} (a b c : α) : vec3 a b c 0 = a := rfl

@[simp]
theorem vec3_one {α : Type} (a b c : α) : vec3 a b c 1 = b := rfl

@[simp]
theorem vec3_two {α : Type} (a b c : α) : vec3 a b c 2 = c := rfl

/-! ## C10: flight-loop command handling -/

/-- C10: draining a pending inbound command in the flight loop answers
`Ping` with `Pong` and hits the panicking `todo!()` arm on every other
`RemoteRequest` variant; there is no non-panicking path for non-`Ping`
commands. -/
theorem flightLoopCommandHandling (r : RemoteRequest) :
    handleRemoteRequest r =
      if r = RemoteRequest.ping then CommandOutcome.responds DroneResponse.pong
      else CommandOutcome.panics := by
  cases r <;> simp [handleRemoteRequest]

/-! ## C8: DShot throttle transform safety -/

/-- C8: for every throttle input, `DShot::throttle_transform` lands in the
valid telemetry range — at least the protocol minimum 48 (strictly above
the command-reserved values 0..=47) and strictly below 2048 — so the
`assert!(value < 2048)` of `DShot::encode_frame` cannot fail on the
`send_throttles` path. -/
theorem dshotThrottleTransformSafe (throttle : Nat) :
    48 ≤ dshotThrottleTransform throttle ∧
    dshotThrottleTransform throttle < 2048 ∧
    (encodeFrame dshot600Timing (dshotThrottleTransform throttle) false).isSome = true := by
  have h : 48 ≤ dshotThrottleTransform throttle ∧ dshotThrottleTransform throttle < 2048 := by
    unfold dshotThrottleTransform
    omega
  refine ⟨h.1, h.2, ?_⟩
  simp only [encodeFrame, if_pos h.2, Option.isSome_some]

/-! ## C9: OneShot pulse encoding -/

/-- C9: each OneShot motor command is exactly one high pulse followed by a
zero-length low period and the end marker, and for every throttle in
`0..=2000` the transform yields `throttle / 2` (the 1000 cap is inactive)
plus 1000, so the encoded high duration lies in `[1000, 2000]`. -/
theorem oneShotPulseSpec (throttle : Nat) (h : throttle ≤ 2000) :
    oneShotThrottleTransform throttle = throttle / 2 + 1000 ∧
    encodeOneshotPulse (oneShotThrottleTransform throttle) =
      [PulseCode.entry (throttle / 2 + 1000) 0, PulseCode.endMarker] ∧
    1000 ≤ oneShotThrottleTransform throttle ∧
    oneShotThrottleTransform throttle ≤ 2000 := by
  have he : oneShotThrottleTransform throttle = throttle / 2 + 1000 := by
    unfold oneShotThrottleTransform
    omega
  refine ⟨he, by rw [he]; rfl, by rw [he]; omega, by rw [he]; omega⟩

/-- Witness for C9 at throttle 1500: the transform gives 1750 and the
pulse train is a single 1750-tick high pulse plus the end marker. -/
theorem oneShotPulseSpecWitness :
    1500 ≤ 2000 ∧
    (oneShotThrottleTransform 1500 = 1500 / 2 + 1000 ∧
      encodeOneshotPulse (oneShotThrottleTransform 1500) =
        [PulseCode.entry (1500 / 2 + 1000) 0, PulseCode.endMarker] ∧
      1000 ≤ oneShotThrottleTransform 1500 ∧
      oneShotThrottleTransform 1500 ≤ 2000) :=
  ⟨by decide, oneShotPulseSpec 1500 (by decide)⟩

/-! ## C4: per-axis PID controller -/

/-- Helper: running the PID on `N` unit errors adds `N` to the integral
sum, with no decay. -/
theorem runPid_sum_replicate_one (N : Nat) :
    ∀ (p : Pid F32) (s : ℚ), p.sum = F32.fin s →
      (runPid p (List.replicate N (F32.fin 1))).1.sum = F32.fin (s + N) := by
  induction N with
  | zero =>
    intro p s h
    simp [runPid, h]
  | succ n ih =>
    intro p s h
    have hadv : (p.advance (F32.fin 1)).1.sum = F32.fin (s + 1) := by
      simp [Pid.advance, h]
    rw [List.replicate_succ]
    show (runPid _ (F32.fin 1 :: List.replicate n (F32.fin 1))).1.sum = _
    simp only [runPid]
    rw [ih (p.advance (F32.fin 1)).1 (s + 1) hadv]
    push_cast
    ring_nf

/-- C4: `Pid::advance` accumulates the error into the running sum before
computing the output, returns `kp*error + ki*sum + kd*(last_input - error)`
with the updated sum, replaces `last_input` by the error afterwards and
leaves the gains unchanged; starting from a zero sum, `N` unit-error calls
leave the integral sum at exactly `N`. Determinism is intrinsic: `advance`
is a pure function of the state and the error. -/
theorem pidAdvanceSpec (p : Pid F32) (e : F32) (N : Nat) (p0 : Pid F32)
    (h0 : p0.sum = F32.fin 0) :
    (p.advance e).2 = p.k_p * e + p.k_i * (p.sum + e) + p.k_d * (p.last_input - e) ∧
    (p.advance e).1.sum = p.sum + e ∧
    (p.advance e).1.last_input = e ∧
    (p.advance e).1.k_p = p.k_p ∧
    (p.advance e).1.k_i = p.k_i ∧
    (p.advance e).1.k_d = p.k_d ∧
    (runPid p0 (List.replicate N (F32.fin 1))).1.sum = F32.fin (N : ℚ) := by
  refine ⟨rfl, rfl, rfl, rfl, rfl, rfl, ?_⟩
  have h := runPid_sum_replicate_one N p0 0 h0
  rwa [zero_add] at h

/-- Witness for C4: the flight binary's roll PID (zero initial sum), unit
errors, `N = 3`. -/
theorem pidAdvanceSpecWitness :
    pidExample.sum = F32.fin 0 ∧
    ((pidExample.advance (F32.fin 2)).2 =
        pidExample.k_p * F32.fin 2 + pidExample.k_i * (pidExample.sum + F32.fin 2) +
          pidExample.k_d * (pidExample.last_input - F32.fin 2) ∧
      (pidExample.advance (F32.fin 2)).1.sum = pidExample.sum + F32.fin 2 ∧
      (pidExample.advance (F32.fin 2)).1.last_input = F32.fin 2 ∧
      (pidExample.advance (F32.fin 2)).1.k_p = pidExample.k_p ∧
      (pidExample.advance (F32.fin 2)).1.k_i = pidExample.k_i ∧
      (pidExample.advance (F32.fin 2)).1.k_d = pidExample.k_d ∧
      (runPid pidExample (List.replicate 3 (F32.fin 1))).1.sum = F32.fin ((3 : ℕ) : ℚ)) :=
  ⟨by decide, pidAdvanceSpec pidExample (F32.fin 2) 3 pidExample (by decide)⟩

/-! ## C5: OneShot arming sequence -/

/-- Helper: a deadline loop emits its throttle value exactly once per
clock reading that is at most the deadline, i.e. emission is driven by the
wall-clock deadline, not by a sample count. -/
theorem phaseLoop_emits_replicate (endT v : Nat) (ts : List Nat) :
    (phaseLoop endT v ts).1 =
      List.replicate (ts.takeWhile (fun t => t ≤ endT)).length v := by
  induction ts with
  | nil => simp [phaseLoop]
  | cons t ts ih =>
    by_cases h : t ≤ endT
    · simp [phaseLoop, h, List.takeWhile_cons, ih, List.replicate_succ]
    · simp [phaseLoop, h, List.takeWhile_cons]

/-- Helper: each scripted phase emits some number of copies of its
throttle value. -/
theorem runPhase_emits_replicate (v dur : Nat) (clock : List Nat) :
    ∃ n, (runPhase v dur clock).1 = List.replicate n v := by
  cases clock with
  | nil => exact ⟨0, rfl⟩
  | cons t0 ts =>
    exact ⟨((ts.takeWhile (fun t => t ≤ t0 + dur)).length),
      phaseLoop_emits_replicate (t0 + dur) v ts⟩

/-- C5 counterexample: under a concrete clock the drone crate's
`Motors::arm_oneshot` — the implementation the flight binary runs before
honoring commanded throttle — emits only the value 1000: no zero-throttle
phase and no mid-range arm value ever appear, so the arming sequence does
not consist of the three claimed phases. The esp-ikarus implementation
does emit the three phases 0, 1200, 1000 under the same kind of clock. -/
theorem armOneshotDroneCounterexample :
    armOneshotDrone [0, 1, 2, 3, 4, 5] = [1000, 1000, 1000] ∧
    1200 ∉ armOneshotDrone [0, 1, 2, 3, 4, 5] ∧
    0 ∉ armOneshotDrone [0, 1, 2, 3, 4, 5] ∧
    armOneshotIkarus (List.range 12) = [0, 1200, 1000] := by
  decide

/-- C5 (amended): the esp-ikarus `arm_oneshot` emits, for every clock,
three deadline-driven phases in order — zero throttle, the mid-range arm
value 1200, then minimum throttle 1000 — while the drone crate's
`arm_oneshot` emits a single phase holding 1000; in both, each phase sends
exactly once per clock reading up to its wall-clock deadline. -/
theorem armOneshotPhases (clock : List Nat) :
    (∃ n1 n2 n3, armOneshotIkarus clock =
      List.replicate n1 0 ++ List.replicate n2 1200 ++ List.replicate n3 1000) ∧
    (∃ m, armOneshotDrone clock = List.replicate m 1000) ∧
    (∀ endT v ts, (phaseLoop endT v ts).1 =
      List.replicate (ts.takeWhile (fun t => t ≤ endT)).length v) := by
  refine ⟨?_, ?_, fun endT v ts => phaseLoop_emits_replicate endT v ts⟩
  · obtain ⟨n1, h1⟩ := runPhase_emits_replicate 0 1 clock
    obtain ⟨n2, h2⟩ := runPhase_emits_replicate 1200 1 (runPhase 0 1 clock).2
    obtain ⟨n3, h3⟩ :=
      runPhase_emits_replicate 1000 1 (runPhase 1200 1 (runPhase 0 1 clock).2).2
    refine ⟨n1, n2, n3, ?_⟩
    simp [armOneshotIkarus, armOneshotIkarusPhases, runPhases, h1, h2, h3]
  · obtain ⟨m, h1⟩ := runPhase_emits_replicate 1000 3 clock
    refine ⟨m, ?_⟩
    simp [armOneshotDrone, armOneshotDronePhases, runPhases, h1]

/-! ## C1: FIFO poll lag tagging -/

/-- C1: in every poll iteration of the IMU read task (one that passes the
`pattern` assertion and delivers events), each decoded sample is tagged
`Lagged` exactly when the hardware reported an overrun or the retained
leftover byte count divided by the word size disagrees with the
hardware-reported pattern index, and `Ok` otherwise. -/
theorem fifoPollTagging (overRun : Bool) (pattern leftoverLen : Nat)
    (bytes : List Nat) (evs : List SampleEvent) (e : SampleEvent)
    (hpoll : readImuPoll overRun pattern leftoverLen bytes = some evs)
    (hmem : e ∈ evs) :
    e.isLagged = (overRun || !(leftoverLen / bytesPerWord == pattern)) ∧
    e.isOk = !(overRun || !(leftoverLen / bytesPerWord == pattern)) := by
  by_cases hp : pattern < wordsPerSample
  · simp only [readImuPoll, if_pos hp, Option.some.injEq] at hpoll
    subst hpoll
    rw [List.mem_map] at hmem
    obtain ⟨c, -, rfl⟩ := hmem
    cases hl : (overRun || !(leftoverLen / bytesPerWord == pattern)) <;>
      simp [hl, SampleEvent.isLagged, SampleEvent.isOk]
  · simp only [readImuPoll, if_neg hp] at hpoll
    exact absurd hpoll (by simp)

/-- Witness for C1: a poll that reports an overrun with 18 zero bytes
read delivers its single decoded sample tagged `Lagged`, not `Ok`. -/
theorem fifoPollTaggingWitness :
    readImuPoll true 0 0 pollBytesExample = some pollEventsExample ∧
    SampleEvent.lagged (decodeSample (List.take 18 pollBytesExample)) ∈ pollEventsExample ∧
    ((SampleEvent.lagged (decodeSample (List.take 18 pollBytesExample))).isLagged =
        (true || !(0 / bytesPerWord == 0)) ∧
      (SampleEvent.lagged (decodeSample (List.take 18 pollBytesExample))).isOk =
        !(true || !(0 / bytesPerWord == 0))) := by
  have hpoll : readImuPoll true 0 0 pollBytesExample = some pollEventsExample := rfl
  have hsingle : pollEventsExample =
      [SampleEvent.lagged (decodeSample (List.take 18 pollBytesExample))] := rfl
  have hmem : SampleEvent.lagged (decodeSample (List.take 18 pollBytesExample)) ∈
      pollEventsExample := by
    rw [hsingle]
    exact List.mem_singleton.mpr rfl
  exact ⟨hpoll, hmem,
    fifoPollTagging true 0 0 pollBytesExample pollEventsExample _ hpoll hmem⟩

/-! ## Bit-manipulation helpers for the DShot frame round trip (C3) -/

/-- Helper: `bitsToNat` of a `k`-bit list is below `2 ^ k`. -/
theorem bitsToNat_lt (l : List Bool) : bitsToNat l < 2 ^ l.length := by
  induction l with
  | nil => simp [bitsToNat]
  | cons b t ih =>
    cases b <;> simp [bitsToNat, List.length_cons, pow_succ] <;> omega

/-- Helper: `natToBits k n` always has length `k`. -/
theorem natToBits_length (k : Nat) : ∀ n, (natToBits k n).length = k := by
  induction k with
  | zero => intro n; rfl
  | succ k ih => intro n; simp [natToBits, ih]

/-- Helper: rebuilding the `k` low-order bits of `n` gives `n % 2 ^ k`. -/
theorem bitsToNat_natToBits (k : Nat) : ∀ n, bitsToNat (natToBits k n) = n % 2 ^ k := by
  induction k with
  | zero => intro n; simp [natToBits, bitsToNat, Nat.mod_one]
  | succ k ih =>
    intro n
    have hsplit : n % 2 ^ (k + 1) = n % 2 + 2 * (n / 2 % 2 ^ k) := by
      rw [pow_succ']
      exact Nat.mod_mul
    rw [hsplit]
    simp only [natToBits, bitsToNat, ih (n / 2)]
    rcases Nat.mod_two_eq_zero_or_one n with h | h <;> simp [h]

/-- Helper: `natToBits` inverts `bitsToNat` at the list's own length. -/
theorem natToBits_bitsToNat : ∀ l : List Bool, natToBits l.length (bitsToNat l) = l := by
  intro l
  induction l with
  | nil => rfl
  | cons b t ih =>
    have hdiv : ((if b then 1 else 0) + 2 * bitsToNat t) / 2 = bitsToNat t := by
      have hb : (if b then 1 else 0) ≤ 1 := by cases b <;> simp
      omega
    have hmod : (((if b then 1 else 0) + 2 * bitsToNat t) % 2 == 1) = b := by
      cases b <;> simp [Nat.add_mul_mod_self_left]
    show (_ % 2 == 1) :: natToBits t.length (_ / 2) = b :: t
    rw [show bitsToNat (b :: t) = (if b then 1 else 0) + 2 * bitsToNat t from rfl] at *
    rw [hdiv, hmod, ih]

/-- Helper: the bits produced by `natToBits` are the shift-and-mask bits
the encoder loop reads. -/
theorem natToBits_range (k : Nat) :
    ∀ n, natToBits k n = (List.range k).map (fun i => (n >>> i) &&& 1 == 1) := by
  induction k with
  | zero => intro n; rfl
  | succ k ih =>
    intro n
    rw [List.range_succ_eq_map, List.map_cons, List.map_map]
    have hhead : ((n >>> 0) &&& 1 == 1) = (n % 2 == 1) := by
      rw [Nat.shiftRight_zero, Nat.and_one_is_mod]
    have htail :
        (List.range k).map ((fun i => (n >>> i) &&& 1 == 1) ∘ Nat.succ) =
          (List.range k).map (fun i => ((n / 2) >>> i) &&& 1 == 1) := by
      apply List.map_congr_left
      intro i _
      have : n >>> (i + 1) = (n / 2) >>> i := by
        rw [Nat.add_comm, Nat.shiftRight_add]
        rfl
      simp [Function.comp, Nat.succ_eq_add_one, this]
    rw [htail, ← ih (n / 2)]
    simp [natToBits, hhead]

/-- Helper: a shifted value or-ed with a small remainder is their sum. -/
theorem shiftLeft_or_eq_add (k : Nat) :
    ∀ a c : Nat, c < 2 ^ k → (a <<< k) ||| c = a * 2 ^ k + c := by
  induction k with
  | zero =>
    intro a c hc
    have : c = 0 := by omega
    subst this
    simp [Nat.shiftLeft_eq]
  | succ k ih =>
    intro a c hc
    have h2 : (2 : Nat) ^ (k + 1) = 2 * 2 ^ k := by rw [pow_succ]; ring
    have hx2 : a <<< (k + 1) = 2 * (a <<< k) := by
      simp [Nat.shiftLeft_eq, h2]
      ring
    have hxmod : a <<< (k + 1) % 2 = 0 := by omega
    have hmod : (a <<< (k + 1) ||| c) % 2 = c % 2 := by
      rcases Nat.mod_two_eq_zero_or_one (a <<< (k + 1) ||| c) with h | h
      · rw [h]
        rcases Nat.mod_two_eq_zero_or_one c with h' | h'
        · omega
        · exact absurd ((Nat.or_mod_two_eq_one (a := a <<< (k + 1)) (b := c)).mpr
            (Or.inr h')) (by omega)
      · rw [h]
        rcases Nat.or_mod_two_eq_one.mp h with h' | h' <;> omega
    have hdiv : (a <<< (k + 1) ||| c) / 2 = (a <<< k) ||| (c / 2) := by
      rw [Nat.or_div_two]
      have hhalf : a <<< (k + 1) / 2 = a <<< k := by omega
      rw [hhalf]
    have hrec : (a <<< k) ||| (c / 2) = a * 2 ^ k + c / 2 := by
      apply ih
      omega
    have htotal := Nat.div_add_mod (a <<< (k + 1) ||| c) 2
    rw [hdiv, hrec] at htotal
    omega

/-- Helper: `reverseBits16` stays below `2 ^ 16`. -/
theorem reverseBits16_lt (n : Nat) : reverseBits16 n < 2 ^ 16 := by
  have h := bitsToNat_lt ((natToBits 16 n).reverse)
  rwa [List.length_reverse, natToBits_length] at h

/-- Helper: `reverseBits16` is an involution below `2 ^ 16`. -/
theorem reverseBits16_involution (n : Nat) (h : n < 2 ^ 16) :
    reverseBits16 (reverseBits16 n) = n := by
  unfold reverseBits16
  have hlen : ((natToBits 16 n).reverse).length = 16 := by
    rw [List.length_reverse, natToBits_length]
  have h1 : natToBits 16 (bitsToNat ((natToBits 16 n).reverse)) =
      (natToBits 16 n).reverse := by
    have := natToBits_bitsToNat ((natToBits 16 n).reverse)
    rwa [hlen] at this
  rw [h1, List.reverse_reverse, bitsToNat_natToBits, Nat.mod_eq_of_lt h]

/-- Helper: decoding the 16 bit pulses of any packet below `2 ^ 16`
recovers the packet's fields, for any timing table whose one-bit pulse
differs from its zero-bit pulse. -/
theorem pulses_roundtrip (T : DShotTiming)
    (hT : PulseCode.entry T.oneHi T.oneLo ≠ PulseCode.entry T.zeroHi T.zeroLo)
    (packet : Nat) (hp : packet < 2 ^ 16) :
    decodeFrame T ((List.range 16).map (fun i =>
        encodeBit T ((reverseBits16 packet >>> i) &&& 1 == 1))
      ++ [PulseCode.endMarker]) =
      some (packet / 32, packet / 16 % 2 == 1, packet % 16) := by
  have hlen16 : ((List.range 16).map (fun i =>
      encodeBit T ((reverseBits16 packet >>> i) &&& 1 == 1))).length = 16 := by
    simp
  have hlen : (((List.range 16).map (fun i =>
      encodeBit T ((reverseBits16 packet >>> i) &&& 1 == 1)))
      ++ [PulseCode.endMarker]).length = 17 := by
    simp
  have hlast : (((List.range 16).map (fun i =>
      encodeBit T ((reverseBits16 packet >>> i) &&& 1 == 1)))
      ++ [PulseCode.endMarker]).getLast? = some PulseCode.endMarker :=
    List.getLast?_concat _
  have hbit : ∀ b : Bool, (encodeBit T b == PulseCode.entry T.oneHi T.oneLo) = b := by
    intro b
    cases b
    · rw [encodeBit, if_neg (by simp), beq_eq_false_iff_ne]
      exact hT.symm
    · rw [encodeBit, if_pos rfl]
      exact beq_self_eq_true _
  have htake : (((List.range 16).map (fun i =>
      encodeBit T ((reverseBits16 packet >>> i) &&& 1 == 1)))
      ++ [PulseCode.endMarker]).take 16 =
      (List.range 16).map (fun i =>
        encodeBit T ((reverseBits16 packet >>> i) &&& 1 == 1)) :=
    List.take_left' hlen16
  have hbits : ((List.range 16).map (fun i =>
      encodeBit T ((reverseBits16 packet >>> i) &&& 1 == 1))).map
        (fun p => p == PulseCode.entry T.oneHi T.oneLo) =
      natToBits 16 (reverseBits16 packet) := by
    rw [List.map_map, natToBits_range]
    apply List.map_congr_left
    intro i _
    simp only [Function.comp_apply]
    exact hbit _
  have hframe : bitsToNat (natToBits 16 (reverseBits16 packet)) = reverseBits16 packet := by
    rw [bitsToNat_natToBits]
    exact Nat.mod_eq_of_lt (reverseBits16_lt packet)
  have hpacket : reverseBits16 (reverseBits16 packet) = packet :=
    reverseBits16_involution packet hp
  unfold decodeFrame
  rw [if_pos ⟨hlen, hlast⟩, htake, hbits]
  simp only [hframe, hpacket]

/-- Helper: generic DShot encode/decode round trip: for every throttle
value below 2048 and telemetry flag, the emitted 17-code pulse train ends
in the end marker and decodes back to the same value, flag and checksum. -/
theorem dshot_roundtrip_aux (T : DShotTiming)
    (hT : PulseCode.entry T.oneHi T.oneLo ≠ PulseCode.entry T.zeroHi T.zeroLo)
    (value : Nat) (hv : value < 2048) (telemetry : Bool) :
    ∃ pulses, encodeFrame T value telemetry = some pulses ∧
      pulses.length = 17 ∧ pulses.getLast? = some PulseCode.endMarker ∧
      decodeFrame T pulses = some (value, telemetry, dshotCrc value telemetry) := by
  have ht1 : (if telemetry then 1 else 0) ≤ 1 := by cases telemetry <;> simp
  have hdata : dshotData value telemetry = value * 2 + (if telemetry then 1 else 0) := by
    have h := shiftLeft_or_eq_add 1 value (if telemetry then 1 else 0) (by omega)
    rw [pow_one] at h
    exact h
  have hcrc : dshotCrc value telemetry ≤ 15 := Nat.and_le_right
  have hpacket : dshotPacket value telemetry =
      dshotData value telemetry * 16 + dshotCrc value telemetry := by
    have h := shiftLeft_or_eq_add 4 (dshotData value telemetry)
      (dshotCrc value telemetry) (by omega)
    rw [show (2 : Nat) ^ 4 = 16 from by norm_num] at h
    exact h
  have h16 : (2 : Nat) ^ 16 = 65536 := by norm_num
  have hplt : dshotPacket value telemetry < 2 ^ 16 := by omega
  have h1 : dshotPacket value telemetry / 32 = value := by omega
  have h2 : dshotPacket value telemetry / 16 % 2 = (if telemetry then 1 else 0) := by
    omega
  have h2' : (dshotPacket value telemetry / 16 % 2 == 1) = telemetry := by
    rw [h2]
    cases telemetry <;> simp
  have h3 : dshotPacket value telemetry % 16 = dshotCrc value telemetry := by omega
  refine ⟨(List.range 16).map (fun i =>
      encodeBit T ((reverseBits16 (dshotPacket value telemetry) >>> i) &&& 1 == 1))
    ++ [PulseCode.endMarker], ?_, by simp, List.getLast?_concat _, ?_⟩
  · unfold encodeFrame
    rw [if_pos hv]
  · rw [pulses_roundtrip T hT (dshotPacket value telemetry) hplt, h1, h2', h3]

/-- C3: for every 11-bit throttle value and telemetry flag and for each of
the three DShot variants, `encode_frame` builds the 12-bit payload with
the checksum `(payload ^ (payload >> 4) ^ (payload >> 8)) & 0xF`,
bit-reverses the 16-bit packet, emits one high/low pulse pair per bit
from the variant's bit-timing table terminated by an end marker, and the
inverse transform on the emitted pulse train recovers the same payload
and checksum. -/
theorem dshotFrameRoundTrip (value : Nat) (telemetry : Bool) (hv : value < 2048) :
    ∀ T ∈ [dshot600Timing, dshot300Timing, dshot150Timing],
      ∃ pulses, encodeFrame T value telemetry = some pulses ∧
        pulses.length = 17 ∧ pulses.getLast? = some PulseCode.endMarker ∧
        decodeFrame T pulses = some (value, telemetry, dshotCrc value telemetry) := by
  intro T hTmem
  have hT : PulseCode.entry T.oneHi T.oneLo ≠ PulseCode.entry T.zeroHi T.zeroLo := by
    fin_cases hTmem <;> decide
  exact dshot_roundtrip_aux T hT value hv telemetry

/-- Witness for C3 at value 1046 with telemetry off, on the DShot600
timing table. -/
theorem dshotFrameRoundTripWitness :
    1046 < 2048 ∧
    dshot600Timing ∈ [dshot600Timing, dshot300Timing, dshot150Timing] ∧
    ∃ pulses, encodeFrame dshot600Timing 1046 false = some pulses ∧
      pulses.length = 17 ∧ pulses.getLast? = some PulseCode.endMarker ∧
      decodeFrame dshot600Timing pulses = some (1046, false, dshotCrc 1046 false) :=
  ⟨by decide, by decide,
    dshotFrameRoundTrip 1046 false (by decide) dshot600Timing (by decide)⟩

/-! ## C2: motor mixer clamping and output bounds -/

/-- Helper: `toU16` of a finite value in `[0, 2000]` is at most 2000. -/
theorem toU16_le_2000 (r : ℚ) (h0 : 0 ≤ r) (h2 : r ≤ 2000) :
    (F32.fin r).toU16 ≤ 2000 := by
  simp only [F32.toU16]
  rw [if_neg (by linarith)]
  have hf : ⌊r⌋ ≤ 2000 := by
    have hm := Int.floor_mono h2
    simpa using hm
  omega

/-- Helper: the Rust clamp to `[0, 1000]` returns NaN on NaN and otherwise
a finite value in `[0, 1000]`. -/
theorem clamp01000_cases (m : F32) :
    m.clampF (F32.fin 0) (F32.fin 1000) = F32.nan ∨
    ∃ q : ℚ, m.clampF (F32.fin 0) (F32.fin 1000) = F32.fin q ∧ 0 ≤ q ∧ q ≤ 1000 := by
  cases m with
  | nan => left; rfl
  | inf s =>
    right
    cases s
    · exact ⟨0, by simp [F32.clampF, F32.flt], le_refl 0, by norm_num⟩
    · exact ⟨1000, by simp [F32.clampF, F32.flt], by norm_num, le_refl 1000⟩
  | fin q =>
    right
    by_cases h1 : q < 0
    · exact ⟨0, by simp [F32.clampF, F32.flt, h1], le_refl 0, by norm_num⟩
    · by_cases h2 : 1000 < q
      · exact ⟨1000, by simp [F32.clampF, F32.flt, h1, h2], by norm_num, le_refl 1000⟩
      · exact ⟨q, by simp [F32.clampF, F32.flt, h1, h2], by linarith, by linarith⟩

/-- Helper: the reversal/offset/cast pipeline applied to a clamped value
is bounded by 2000, whether the clamp produced NaN (cast to 0) or a finite
value in `[0, 1000]`. -/
theorem mapped_pipeline_le (c : F32) (rev : Bool)
    (hc : c = F32.nan ∨ ∃ q : ℚ, c = F32.fin q ∧ 0 ≤ q ∧ q ≤ 1000) :
    ((if rev then -c else c) + F32.fin 1000).toU16 ≤ 2000 := by
  rcases hc with rfl | ⟨q, rfl, hq0, hq1⟩
  · cases rev <;> simp [F32.toU16]
  · cases rev
    · show (F32.fin q + F32.fin 1000).toU16 ≤ 2000
      rw [F32.fin_add_fin]
      exact toU16_le_2000 _ (by linarith) (by linarith)
    · show (-F32.fin q + F32.fin 1000).toU16 ≤ 2000
      rw [F32.neg_fin, F32.fin_add_fin]
      exact toU16_le_2000 _ (by linarith) (by linarith)

/-- Helper: clamping a non-NaN value into `[0, 1000]` really lands in the
range. -/
theorem clamp_inClampRange (m : F32) (h : m.isNaN = false) :
    inClampRange (m.clampF (F32.fin 0) (F32.fin 1000)) = true := by
  cases m with
  | nan => simp [F32.isNaN] at h
  | inf s =>
    cases s
    · simp [F32.clampF, F32.flt, inClampRange]
    · simp [F32.clampF, F32.flt, inClampRange]
  | fin q =>
    by_cases h1 : q < 0
    · simp [F32.clampF, F32.flt, h1, inClampRange]
    · by_cases h2 : 1000 < q
      · simp [F32.clampF, F32.flt, h1, h2, inClampRange]
      · have hcl : (F32.fin q).clampF (F32.fin 0) (F32.fin 1000) = F32.fin q := by
          simp [F32.clampF, F32.flt, h1, h2]
        rw [hcl]
        simp only [inClampRange, decide_eq_true_eq]
        constructor <;> linarith

/-- C2 counterexample: with a NaN thrust the first mix output is NaN, the
clamp returns it unchanged — so the clamped value is not in `[0, 1000]` —
and the saturating `as u16` cast then maps every motor to 0. -/
theorem mixerClampNaNCounterexample :
    ((motorThrottlesClamped F32.nan (F32.fin 0) (F32.fin 0) (F32.fin 0)).getD 0
        (F32.fin 0)).isNaN = true ∧
    inClampRange ((motorThrottlesClamped F32.nan (F32.fin 0) (F32.fin 0)
        (F32.fin 0)).getD 0 (F32.fin 0)) = false ∧
    mappedMotorThrottles F32.nan (F32.fin 0) (F32.fin 0) (F32.fin 0) = [0, 0, 0, 0] := by
  decide

/-- C2 (amended): for every input — infinities and NaN included — each of
the four final u16 throttles is a deterministic value at most 2000 (the
protocol input range), and whenever a mix output is not NaN its clamped
value is a finite value in `[0, 1000]`; a NaN mix output passes through
the clamp unchanged and is mapped to 0 by the saturating cast. -/
theorem mixerMappedBounds (thrust roll pitch yaw : F32) (i : Fin 4) :
    (mappedMotorThrottles thrust roll pitch yaw).getD i.val 0 ≤ 2000 ∧
    (((motorThrottlesRaw thrust roll pitch yaw).getD i.val F32.nan).isNaN = false →
      inClampRange (((motorThrottlesRaw thrust roll pitch yaw).getD i.val
        F32.nan).clampF (F32.fin 0) (F32.fin 1000)) = true) := by
  constructor
  · have hlist : mappedMotorThrottles thrust roll pitch yaw =
        [(((thrust + roll + pitch - yaw).clampF (F32.fin 0) (F32.fin 1000)) +
            F32.fin 1000).toU16,
          (((thrust - roll + pitch + yaw).clampF (F32.fin 0) (F32.fin 1000)) +
            F32.fin 1000).toU16,
          (((thrust - roll - pitch - yaw).clampF (F32.fin 0) (F32.fin 1000)) +
            F32.fin 1000).toU16,
          ((-((thrust + roll - pitch + yaw).clampF (F32.fin 0) (F32.fin 1000))) +
            F32.fin 1000).toU16] := rfl
    rw [hlist]
    fin_cases i
    · exact mapped_pipeline_le _ false (clamp01000_cases _)
    · exact mapped_pipeline_le _ false (clamp01000_cases _)
    · exact mapped_pipeline_le _ false (clamp01000_cases _)
    · exact mapped_pipeline_le _ true (clamp01000_cases _)
  · intro h
    exact clamp_inClampRange _ h

/-- Witness for C2 at `thrust = 4`, `roll = 1`, `pitch = 1`, `yaw = 2`,
motor 0: the mix output is finite, so the clamped value is in range and
the mapped throttle is bounded. -/
theorem mixerMappedBoundsWitness :
    ((motorThrottlesRaw (F32.fin 4) (F32.fin 1) (F32.fin 1) (F32.fin 2)).getD 0
        F32.nan).isNaN = false ∧
    (mappedMotorThrottles (F32.fin 4) (F32.fin 1) (F32.fin 1) (F32.fin 2)).getD 0 0 ≤ 2000 ∧
    inClampRange (((motorThrottlesRaw (F32.fin 4) (F32.fin 1) (F32.fin 1)
        (F32.fin 2)).getD 0 F32.nan).clampF (F32.fin 0) (F32.fin 1000)) = true :=
  ⟨by decide,
    (mixerMappedBounds (F32.fin 4) (F32.fin 1) (F32.fin 1) (F32.fin 2) 0).1,
    (mixerMappedBounds (F32.fin 4) (F32.fin 1) (F32.fin 1) (F32.fin 2) 0).2 (by decide)⟩

/-! ## C6: yaw is gyro-integration only -/

/-- C6 (amended): for every `sqrt`/`atan2` interpretation, state and
sample, `advance` updates yaw as `yaw + IMU_AXIS_SCALE[2] * gyro_z * dt`
with no accelerometer term; when the z-axis gyro rate is zero and `dt` is
finite the yaw estimate is exactly unchanged (with an infinite or NaN
`dt`, IEEE gives `0 * dt = NaN` and yaw becomes NaN instead). -/
theorem yawGyroOnly (sqrtF : F32 → F32) (atan2F : F32 → F32 → F32)
    (st : FusionState) (s : SampleF) :
    (fusionAdvance sqrtF atan2F st s).1.orientation 2 =
      st.orientation 2 + imuAxisScale 2 * s.gyro (imuAxisMap 2) * s.dt ∧
    (s.gyro 2 = F32.fin 0 → s.dt.isFinite = true →
      (fusionAdvance sqrtF atan2F st s).1.orientation 2 = st.orientation 2) := by
  have hyaw : (fusionAdvance sqrtF atan2F st s).1.orientation 2 =
      st.orientation 2 + imuAxisScale 2 * s.gyro (imuAxisMap 2) * s.dt := rfl
  refine ⟨hyaw, fun hg hdt => ?_⟩
  rw [hyaw, show imuAxisMap 2 = 2 from rfl, hg,
    show imuAxisScale 2 = F32.fin (-1) from rfl]
  cases hd : s.dt with
  | nan => rw [hd] at hdt; simp [F32.isFinite] at hdt
  | inf b => rw [hd] at hdt; simp [F32.isFinite] at hdt
  | fin d =>
    rw [F32.fin_mul_fin, show ((-1 : ℚ) * 0) = 0 from by norm_num,
      F32.fin_mul_fin, show ((0 : ℚ) * d) = 0 from by norm_num]
    exact F32.add_fin_zero _

/-- Witness for C6: the flight binary's fusion state, a sample with zero
z-gyro rate and `dt = 1/400`: yaw is exactly unchanged. -/
theorem yawGyroOnlyWitness :
    sampleGyroZeroDtFinite.gyro 2 = F32.fin 0 ∧
    sampleGyroZeroDtFinite.dt.isFinite = true ∧
    (fusionAdvance F32.sqrtM F32.atan2M fusionStateExample
        sampleGyroZeroDtFinite).1.orientation 2 = fusionStateExample.orientation 2 :=
  ⟨rfl, rfl,
    (yawGyroOnly F32.sqrtM F32.atan2M fusionStateExample sampleGyroZeroDtFinite).2 rfl rfl⟩

/-- C6 counterexample: a sample with zero z-axis gyro rate but `dt = +inf`
changes the yaw estimate: `-1 * 0 = 0`, `0 * inf = NaN`, `yaw + NaN = NaN`,
so yaw does not equal its previous value for every zero-gyro sample. -/
theorem yawInfiniteDtCounterexample :
    sampleGyroZeroDtInf.gyro 2 = F32.fin 0 ∧
    (fusionAdvance F32.sqrtM F32.atan2M fusionStateExample
        sampleGyroZeroDtInf).1.orientation 2 ≠ fusionStateExample.orientation 2 := by
  refine ⟨rfl, ?_⟩
  have h : (fusionAdvance F32.sqrtM F32.atan2M fusionStateExample
      sampleGyroZeroDtInf).1.orientation 2 =
      F32.fin 0 + F32.fin (-1) * F32.fin 0 * F32.inf true := rfl
  rw [h, F32.fin_mul_fin, show ((-1 : ℚ) * 0) = 0 from by norm_num,
    F32.fin_zero_mul_inf, F32.add_nan]
  intro hc
  exact F32.noConfusion hc

/-! ## C7: zero accelerometer norm is not guarded -/

/-- C7 (amended): `advance` does not guard the leveling computation: for
any state and any sample whose accelerometer vector is zero, the gravity
norm is zero, the normalization divides `0 / 0` into NaN, and the
resulting roll and pitch estimates are NaN — for every interpretation of
`sqrt` and `atan2` satisfying the IEEE special-value identities used on
this path. -/
theorem zeroAccelUnguarded (sqrtF : F32 → F32) (atan2F : F32 → F32 → F32)
    (st : FusionState) (s : SampleF)
    (h0 : s.accel 0 = F32.fin 0) (h1 : s.accel 1 = F32.fin 0)
    (h2 : s.accel 2 = F32.fin 0)
    (hs0 : sqrtF (F32.fin 0) = F32.fin 0)
    (hsn : sqrtF F32.nan = F32.nan)
    (han : atan2F F32.nan F32.nan = F32.nan)
    (hz0 : atan2F (F32.fin 0) F32.nan = F32.nan) :
    ((fusionAdvance sqrtF atan2F st s).1.orientation 0).isNaN = true ∧
    ((fusionAdvance sqrtF atan2F st s).1.orientation 1).isNaN = true := by
  cases hdt : s.dt with
  | fin d =>
    constructor <;>
      simp [fusionAdvance, imuAxisScale, imuAxisMap, h0, h1, h2, hdt,
        hs0, hsn, han, hz0, F32.isNaN]
  | inf b =>
    constructor <;>
      simp [fusionAdvance, imuAxisScale, imuAxisMap, h0, h1, h2, hdt,
        hs0, hsn, han, hz0, F32.isNaN]
  | nan =>
    constructor <;>
      simp [fusionAdvance, imuAxisScale, imuAxisMap, h0, h1, h2, hdt,
        hs0, hsn, han, hz0, F32.isNaN]

/-- Witness for C7: the flight binary's fusion state and a concrete
zero-accelerometer sample, with the concrete IEEE special-value stand-ins
for `sqrt` and `atan2`. -/
theorem zeroAccelUnguardedWitness :
    sampleZeroAccel.accel 0 = F32.fin 0 ∧
    sampleZeroAccel.accel 1 = F32.fin 0 ∧
    sampleZeroAccel.accel 2 = F32.fin 0 ∧
    F32.sqrtM (F32.fin 0) = F32.fin 0 ∧
    F32.sqrtM F32.nan = F32.nan ∧
    F32.atan2M F32.nan F32.nan = F32.nan ∧
    F32.atan2M (F32.fin 0) F32.nan = F32.nan ∧
    ((fusionAdvance F32.sqrtM F32.atan2M fusionStateExample
        sampleZeroAccel).1.orientation 0).isNaN = true ∧
    ((fusionAdvance F32.sqrtM F32.atan2M fusionStateExample
        sampleZeroAccel).1.orientation 1).isNaN = true := by
  have hs0 : F32.sqrtM (F32.fin 0) = F32.fin 0 := by
    simp [F32.sqrtM]
  have h := zeroAccelUnguarded F32.sqrtM F32.atan2M fusionStateExample
    sampleZeroAccel rfl rfl rfl hs0 rfl rfl rfl
  exact ⟨rfl, rfl, rfl, hs0, rfl, rfl, rfl, h.1, h.2⟩

/-- C7 counterexample: at a concrete zero-accelerometer sample the
unguarded division `0 / 0` makes both the roll and the pitch estimate
NaN, contradicting the claim that `advance` guards the leveling
computation and keeps them well-defined. -/
theorem zeroAccelNaNCounterexample :
    sampleZeroAccel.accel 0 = F32.fin 0 ∧
    sampleZeroAccel.accel 1 = F32.fin 0 ∧
    sampleZeroAccel.accel 2 = F32.fin 0 ∧
    ((fusionAdvance F32.sqrtM F32.atan2M fusionStateExample
        sampleZeroAccel).1.orientation 0).isNaN = true ∧
    ((fusionAdvance F32.sqrtM F32.atan2M fusionStateExample
        sampleZeroAccel).1.orientation 1).isNaN = true := by
  refine ⟨rfl, rfl, rfl, ?_, ?_⟩ <;>
    simp [fusionAdvance, imuAxisScale, imuAxisMap, sampleZeroAccel,
      fusionStateExample, F32.sqrtM, F32.atan2M, F32.isNaN]

end Quadstorm
